import Mathlib

/-!
Verification of the load-test engine of pod-rightsizer
(pkg/loadtest/tester.go) via a shallow embedding in Lean 4.

Conventions of the embedding:
- Go durations (time.Duration, int64 nanoseconds) are modelled as Int.
- Go ints used as counters are modelled as Nat (they only increase by 1).
- Go float64 arithmetic in the derived statistics is modelled exactly over
  the rationals.
- The Go map from status code to count is modelled as an association list;
  the nil-map test in Metrics.Add is modelled by an explicit initialized
  flag, since a nil map and an empty map agree on all lookups and lengths
  and differ only on that test.
- The result-channel guard (mutex + closed flag + bounded channel) is
  modelled as a state machine whose atomic operations are the bodies of
  safeSend and safeClose; the mutex serializes them, so any concurrent
  execution is a sequence of these atomic operations.  The Go select
  statement chooses uniformly among its ready cases, so safeSend takes an
  explicit SelectPick argument resolving that nondeterminism.
-/

/-- An Outcome of a single request: Result in tester.go.  The error field
records whether the Go error is non-nil. -/
structure Result where
  latency : Int
  statusCode : Int
  error : Bool
deriving DecidableEq, Repr

/-- Metrics of tester.go.  The initialized flag models the Go test
StatusCodes == nil (false exactly when the map is still nil). -/
structure Metrics where
  requests : Nat
  success : Nat
  failures : Nat
  initialized : Bool
  statusCodes : List (Int × Nat)
  totalLatency : Int
  minLatency : Int
  maxLatency : Int
  latencies : List Int
deriving DecidableEq, Repr

/-- The Go zero value of Metrics. -/
def Metrics.empty : Metrics :=
  { requests := 0, success := 0, failures := 0, initialized := false,
    statusCodes := [], totalLatency := 0, minLatency := 0, maxLatency := 0,
    latencies := [] }

/-- Incrementing one entry of the status-code histogram:
m.StatusCodes[r.StatusCode]++ in tester.go. -/
def bumpCode : List (Int × Nat) → Int → List (Int × Nat)
  | [], code => [(code, 1)]
  | (c, n) :: rest, code =>
      if c = code then (c, n + 1) :: rest else (c, n) :: bumpCode rest code

/-- The sentinel 24 * time.Hour in nanoseconds, used to initialize
MinLatency on the first Add. -/
def minLatencySentinel : Int := 86400000000000

/-- Metrics.Add of tester.go, line by line. -/
def Metrics.add (m : Metrics) (r : Result) : Metrics :=
  let m := if m.initialized then m
           else { m with initialized := true, minLatency := minLatencySentinel }
  let m := { m with requests := m.requests + 1 }
  if r.error then
    { m with failures := m.failures + 1 }
  else
    let m := { m with
      statusCodes := bumpCode m.statusCodes r.statusCode,
      totalLatency := m.totalLatency + r.latency,
      latencies := m.latencies ++ [r.latency] }
    let m := if r.latency < m.minLatency then { m with minLatency := r.latency } else m
    let m := if m.maxLatency < r.latency then { m with maxLatency := r.latency } else m
    if 200 ≤ r.statusCode ∧ r.statusCode < 400 then
      { m with success := m.success + 1 }
    else
      { m with failures := m.failures + 1 }

/-- The aggregate produced by feeding a sequence of outcomes, in order, to
an initially zero Metrics value. -/
def Metrics.ofList (rs : List Result) : Metrics :=
  rs.foldl Metrics.add Metrics.empty

/-- Metrics.MeanLatency of tester.go.  Go int64 division truncates toward
zero, which is Int.tdiv. -/
def Metrics.meanLatency (m : Metrics) : Int :=
  if m.requests = 0 ∨ m.totalLatency = 0 then 0
  else m.totalLatency.tdiv (m.requests : Int)

/-- Metrics.SuccessRate of tester.go, float64 arithmetic modelled over ℚ. -/
def Metrics.successRate (m : Metrics) : ℚ :=
  if m.requests = 0 then 0
  else (m.success : ℚ) / (m.requests : ℚ) * 100

/-- The index computed by Metrics.P95Latency before indexing:
idx := int(float64(n) * 0.95) (modelled exactly: ⌊19 n / 20⌋), then
clamped to n - 1 when idx ≥ n. -/
def p95Index (n : Nat) : Nat :=
  let idx := 19 * n / 20
  if n ≤ idx then n - 1 else idx

/-- Metrics.P95Latency of tester.go: 0 on an empty sample, otherwise the
element of the ascending sort of the samples at p95Index. -/
def Metrics.p95Latency (m : Metrics) : Int :=
  if m.latencies.isEmpty then 0
  else
    let sorted := List.insertionSort (· ≤ ·) m.latencies
    sorted.getD (p95Index m.latencies.length) 0

/-- Metrics.Throughput of tester.go: requests divided by TotalLatency in
seconds, 0 when requests or TotalLatency is 0; float64 modelled over ℚ. -/
def Metrics.throughput (m : Metrics) : ℚ :=
  if m.requests = 0 ∨ m.totalLatency = 0 then 0
  else (m.requests : ℚ) / ((m.totalLatency : ℚ) / 1000000000)

/-- Following the words of the spec for the throughput claim: total request
count divided by the sum of ALL observed latencies in seconds, including
the latencies carried by errored outcomes; zero with zero requests. -/
def claimThroughput (rs : List Result) : ℚ :=
  if rs.length = 0 then 0
  else (rs.length : ℚ) / (((rs.map Result.latency).sum : ℚ) / 1000000000)

/-! ## The result-channel guard -/

/-- The resolution of the Go select in safeSend when both the
testCtx.Done() receive and the channel send are ready: Go chooses one of
the ready cases uniformly at random. -/
inductive SelectPick where
  | done
  | send
deriving DecidableEq, Repr

/-- State shared by safeSend and safeClose: the closed flag, the buffered
channel contents, and a count of how many times close(resultsChan) has
actually executed. -/
structure GuardState where
  closed : Bool
  queue : List Result
  closeCount : Nat
deriving DecidableEq, Repr

/-- Initial guard state: open flag, empty buffer, no close executed. -/
def GuardState.init : GuardState :=
  { closed := false, queue := [], closeCount := 0 }

/-- safeSend of tester.go (identical at lines 117 and 294), one atomic
mutex-protected execution.  cap is the channel buffer capacity, ctxDone
whether testCtx.Done() is already closed, pick resolves the select when
several cases are ready.  When the flag is closed nothing happens; when
ctxDone and the buffer has space, both the done case and the send case are
ready and the pick decides; a full buffer with ctxDone leaves only the done
case ready; without ctxDone the send proceeds if there is space, else the
default case drops the outcome. -/
def safeSend (cap : Nat) (pick : SelectPick) (ctxDone : Bool) (r : Result)
    (s : GuardState) : GuardState :=
  if s.closed then s
  else if ctxDone then
    if s.queue.length < cap then
      match pick with
      | .done => s
      | .send => { s with queue := s.queue ++ [r] }
    else s
  else if s.queue.length < cap then { s with queue := s.queue ++ [r] }
  else s

/-- safeClose of tester.go (lines 136 and 313), one atomic execution:
if not closed, set the flag and execute the underlying close. -/
def safeClose (s : GuardState) : GuardState :=
  if s.closed then s
  else { s with closed := true, closeCount := s.closeCount + 1 }

/-- One guard operation: a Send with its environment (deadline state and
select resolution) or a Close. -/
inductive GOp where
  | send (r : Result) (ctxDone : Bool) (pick : SelectPick)
  | close
deriving DecidableEq, Repr

/-- Execute one guard operation. -/
def guardStep (cap : Nat) (s : GuardState) : GOp → GuardState
  | .send r ctxDone pick => safeSend cap pick ctxDone r s
  | .close => safeClose s

/-- Execute a sequence of guard operations from a state. -/
def guardRun (cap : Nat) (s : GuardState) (ops : List GOp) : GuardState :=
  ops.foldl (guardStep cap) s

/-! ## Target validation -/

/-- isURL of tester.go: the string starts with the exact bytes http:// or
https:// (Go compares len(s) >= 7 && s[0:7] == ..., equivalent to this
character-level prefix test because both sides are pure ASCII). -/
def isURL (s : String) : Bool :=
  (s.take 7 == "http://") || (s.take 8 == "https://")

/-- The normalization step of Tester.validateTarget: prepend http:// when
isURL fails. -/
def normalizeTarget (s : String) : String :=
  if !isURL s then "http://" ++ s else s

/-- Tester.validateTarget of tester.go, parameterized by the external URL
parser (net/url.Parse is standard-library code, not part of this
repository): normalize, then parse; a parse failure is returned as the
MalformedTarget error (none). -/
def validateTarget {α : Type} (parse : String → Option α) (target : String) :
    Option α :=
  parse (normalizeTarget target)

/-! ## Helper lemmas about Metrics.add -/

theorem add_requests (m : Metrics) (r : Result) :
    (m.add r).requests = m.requests + 1 := by
  simp only [Metrics.add]
  repeat' split
  all_goals rfl

theorem add_succ_fail (m : Metrics) (r : Result) :
    (m.add r).success + (m.add r).failures = m.success + m.failures + 1 := by
  simp only [Metrics.add]
  repeat' split
  all_goals simp +arith

theorem add_totalLatency (m : Metrics) (r : Result) :
    (m.add r).totalLatency =
      if r.error then m.totalLatency else m.totalLatency + r.latency := by
  simp only [Metrics.add]
  repeat' split
  all_goals simp_all

theorem foldl_add_inv (P : Metrics → Prop) (hstep : ∀ m r, P m → P (m.add r)) :
    ∀ (rs : List Result) (m : Metrics), P m → P (rs.foldl Metrics.add m)
  | [], _, h => h
  | r :: rs, m, h => foldl_add_inv P hstep rs (m.add r) (hstep m r h)

theorem foldl_requests (rs : List Result) :
    ∀ m : Metrics, (rs.foldl Metrics.add m).requests = m.requests + rs.length := by
  induction rs with
  | nil => intro m; simp
  | cons r rs ih =>
      intro m
      simp only [List.foldl_cons, ih (m.add r), add_requests, List.length_cons]
      omega

/-- The latency mass the aggregator actually records: the sum of the
latencies of the error-free outcomes only. -/
def errorFreeLatencySum (rs : List Result) : Int :=
  ((rs.filter fun r => !r.error).map Result.latency).sum

theorem foldl_totalLatency (rs : List Result) :
    ∀ m : Metrics,
      (rs.foldl Metrics.add m).totalLatency = m.totalLatency + errorFreeLatencySum rs := by
  induction rs with
  | nil => intro m; simp [errorFreeLatencySum]
  | cons r rs ih =>
      intro m
      simp only [List.foldl_cons, ih (m.add r), add_totalLatency]
      cases he : r.error
      all_goals simp [errorFreeLatencySum, he]
      all_goals try ring

/-- C3: after every sequence of Add calls (hence after every individual
Add along the way, each reachable aggregate being ofList of a prefix),
success count plus failure count equals the total request count. -/
theorem success_add_failure_eq_total (rs : List Result) :
    (Metrics.ofList rs).success + (Metrics.ofList rs).failures
      = (Metrics.ofList rs).requests := by
  have h := foldl_add_inv (fun m => m.success + m.failures = m.requests)
    (fun m r hm => by
      have h1 := add_succ_fail m r
      have h2 := add_requests m r
      omega)
    rs Metrics.empty rfl
  exact h

/-- C6: an error-free outcome is counted as a success exactly when its
status code lies in the interval from 200 inclusive to 400 exclusive, and
as a failure otherwise; in particular 199 and 400 are failures while 200
and 399 are successes. -/
theorem add_success_classification (m : Metrics) (r : Result)
    (he : r.error = false) :
    ((200 ≤ r.statusCode ∧ r.statusCode < 400) →
        (m.add r).success = m.success + 1 ∧ (m.add r).failures = m.failures)
  ∧ (¬ (200 ≤ r.statusCode ∧ r.statusCode < 400) →
        (m.add r).success = m.success ∧ (m.add r).failures = m.failures + 1)
  ∧ (Metrics.empty.add { latency := 0, statusCode := 199, error := false }).failures = 1
  ∧ (Metrics.empty.add { latency := 0, statusCode := 200, error := false }).success = 1
  ∧ (Metrics.empty.add { latency := 0, statusCode := 399, error := false }).success = 1
  ∧ (Metrics.empty.add { latency := 0, statusCode := 400, error := false }).failures = 1 := by
  refine ⟨?_, ?_, by decide, by decide, by decide, by decide⟩
  all_goals intro h
  all_goals simp only [Metrics.add, he]
  all_goals repeat' split
  all_goals simp_all

/-- C6 witness: the classification theorem applied to the empty aggregate
and a concrete error-free outcome with status 250. -/
theorem add_success_classification_witness :
    (Metrics.empty.add { latency := 3, statusCode := 250, error := false }).success
        = Metrics.empty.success + 1
  ∧ (Metrics.empty.add { latency := 3, statusCode := 250, error := false }).failures
        = Metrics.empty.failures := by
  exact (add_success_classification Metrics.empty
    { latency := 3, statusCode := 250, error := false } rfl).1 (by decide)

/-- C7: adding an errored outcome only increments the total and failure
counts; histogram, latency sum, latency samples, success count and max
latency are untouched, and the min latency either stays or (on the very
first Add) is set to the 24-hour sentinel, never to the errored latency. -/
theorem add_error_frame (m : Metrics) (r : Result) (he : r.error = true) :
    (m.add r).requests = m.requests + 1
  ∧ (m.add r).failures = m.failures + 1
  ∧ (m.add r).success = m.success
  ∧ (m.add r).statusCodes = m.statusCodes
  ∧ (m.add r).totalLatency = m.totalLatency
  ∧ (m.add r).latencies = m.latencies
  ∧ (m.add r).maxLatency = m.maxLatency
  ∧ ((m.add r).minLatency = m.minLatency ∨
      (m.initialized = false ∧ (m.add r).minLatency = minLatencySentinel)) := by
  simp only [Metrics.add, he]
  cases hm : m.initialized <;> simp [hm]

/-- C7 witness: the frame theorem applied to the empty aggregate and a
concrete errored outcome carrying latency 5000000000. -/
theorem add_error_frame_witness :
    (Metrics.empty.add { latency := 5000000000, statusCode := 0, error := true }).requests
        = Metrics.empty.requests + 1
  ∧ (Metrics.empty.add { latency := 5000000000, statusCode := 0, error := true }).latencies
        = Metrics.empty.latencies := by
  have h := add_error_frame Metrics.empty
    { latency := 5000000000, statusCode := 0, error := true } rfl
  exact ⟨h.1, h.2.2.2.2.2.1⟩

/-- C4: on a non-empty sample sequence, P95Latency returns the element at
index min(N-1, floor(0.95 N)) of the (unique) ascending sort of the
samples, with no interpolation; on an empty sequence it returns 0.  The
sorted sequence is described abstractly: any sorted permutation l of the
samples. -/
theorem p95_spec (m : Metrics) (l : List Int)
    (hperm : l.Perm m.latencies) (hsort : l.Sorted (· ≤ ·)) :
    m.p95Latency =
      if m.latencies = [] then 0
      else l.getD (min (m.latencies.length - 1) (19 * m.latencies.length / 20)) 0 := by
  have hsorted := List.sorted_insertionSort (· ≤ ·) m.latencies
  have hperm2 := List.perm_insertionSort (· ≤ ·) m.latencies
  have heq : List.insertionSort (· ≤ ·) m.latencies = l :=
    List.eq_of_perm_of_sorted (hperm2.trans hperm.symm) hsorted hsort
  by_cases hnil : m.latencies = []
  · simp [Metrics.p95Latency, hnil]
  · have hpos : 0 < m.latencies.length := List.length_pos.mpr hnil
    have hlt : 19 * m.latencies.length / 20 < m.latencies.length :=
      (Nat.div_lt_iff_lt_mul (by omega)).mpr (by omega)
    have hidx : p95Index m.latencies.length = 19 * m.latencies.length / 20 := by
      simp only [p95Index]
      split
      · omega
      · rfl
    have hmin : min (m.latencies.length - 1) (19 * m.latencies.length / 20)
        = 19 * m.latencies.length / 20 := by omega
    simp only [Metrics.p95Latency, List.isEmpty_iff, hnil, if_false, heq, hidx, hmin]

/-- C4 witness: the percentile theorem applied to an aggregate holding the
samples 3, 1, 2 and the sorted permutation 1, 2, 3, giving the value 3. -/
theorem p95_spec_witness :
    ({ Metrics.empty with latencies := [3, 1, 2] } : Metrics).p95Latency = 3 := by
  have h := p95_spec { Metrics.empty with latencies := [3, 1, 2] } [1, 2, 3]
    (by decide) (by decide)
  simpa using h

/-- C5 counterexample: with one errored outcome of latency 5 s and one
successful outcome of latency 1 s, the code computes throughput 2 req/s
(denominator 1 s: the errored latency is never accumulated), while the
claimed formula over the sum of ALL observed latencies gives 2/6 req/s. -/
theorem throughput_counterexample :
    (Metrics.ofList [{ latency := 5000000000, statusCode := 0, error := true },
                     { latency := 1000000000, statusCode := 200, error := false }]).throughput
      = 2
  ∧ claimThroughput [{ latency := 5000000000, statusCode := 0, error := true },
                     { latency := 1000000000, statusCode := 200, error := false }]
      = 1 / 3
  ∧ (2 : ℚ) ≠ 1 / 3 := by
  refine ⟨?_, ?_, by norm_num⟩
  · have h1 : (Metrics.ofList [{ latency := 5000000000, statusCode := 0, error := true },
        { latency := 1000000000, statusCode := 200, error := false }]).requests = 2 := by
      decide
    have h2 : (Metrics.ofList [{ latency := 5000000000, statusCode := 0, error := true },
        { latency := 1000000000, statusCode := 200, error := false }]).totalLatency
        = 1000000000 := by decide
    rw [Metrics.throughput, h1, h2]
    norm_num
  · rw [claimThroughput]
    norm_num

/-- C5 amended: Throughput equals the total request count divided by the
sum of the latencies of the ERROR-FREE outcomes only, expressed in
seconds (errored outcomes count in the numerator but their latencies are
excluded from the denominator); it is zero when there are no requests or
when that recorded latency sum is zero. -/
theorem throughput_amended (rs : List Result) :
    (Metrics.ofList rs).throughput =
      if rs.length = 0 ∨ errorFreeLatencySum rs = 0 then 0
      else (rs.length : ℚ) / ((errorFreeLatencySum rs : ℚ) / 1000000000) := by
  have h1 : (Metrics.ofList rs).requests = rs.length := by
    have := foldl_requests rs Metrics.empty
    simpa [Metrics.ofList, Metrics.empty] using this
  have h2 : (Metrics.ofList rs).totalLatency = errorFreeLatencySum rs := by
    have := foldl_totalLatency rs Metrics.empty
    simpa [Metrics.ofList, Metrics.empty] using this
  rw [Metrics.throughput, h1, h2]

/-- C8: the four derived statistics are total functions of the aggregate
(each division guarded, the percentile index always in bounds on a
non-empty sample), and an aggregate built from outcomes with zero total
requests reports zero for all four. -/
theorem derived_stats_zero (rs : List Result) (n : Nat)
    (h : (Metrics.ofList rs).requests = 0) (hn : 0 < n) :
    (Metrics.ofList rs).meanLatency = 0
  ∧ (Metrics.ofList rs).successRate = 0
  ∧ (Metrics.ofList rs).p95Latency = 0
  ∧ (Metrics.ofList rs).throughput = 0
  ∧ p95Index n < n := by
  have hlen : (Metrics.ofList rs).requests = rs.length := by
    have := foldl_requests rs Metrics.empty
    simpa [Metrics.ofList, Metrics.empty] using this
  have hnil : rs = [] := by
    have : rs.length = 0 := by omega
    exact List.length_eq_zero.mp this
  subst hnil
  have hbound : p95Index n < n := by
    have hlt : 19 * n / 20 < n := (Nat.div_lt_iff_lt_mul (by omega)).mpr (by omega)
    simp only [p95Index]
    split <;> omega
  exact ⟨rfl, rfl, rfl, rfl, hbound⟩

/-- C8 witness: the totality theorem applied to the empty outcome sequence
and sample count 1. -/
theorem derived_stats_zero_witness :
    (Metrics.ofList []).meanLatency = 0
  ∧ (Metrics.ofList []).successRate = 0
  ∧ (Metrics.ofList []).p95Latency = 0
  ∧ (Metrics.ofList []).throughput = 0
  ∧ p95Index 1 < 1 := derived_stats_zero [] 1 rfl (by decide)

/-! ## Guard theorems -/

theorem guardStep_of_closed (cap : Nat) (s : GuardState) (op : GOp)
    (h : s.closed = true) : guardStep cap s op = s := by
  cases op with
  | send r ctxDone pick => simp [guardStep, safeSend, h]
  | close => simp [guardStep, safeClose, h]

theorem guardRun_of_closed (cap : Nat) (ops : List GOp) :
    ∀ s : GuardState, s.closed = true → guardRun cap s ops = s := by
  induction ops with
  | nil => intro s _; rfl
  | cons op ops ih =>
      intro s h
      simp only [guardRun, List.foldl_cons]
      rw [show (guardStep cap s op) = s from guardStep_of_closed cap s op h]
      exact ih s h

theorem safeClose_closed (s : GuardState) : (safeClose s).closed = true := by
  simp only [safeClose]
  split
  · assumption
  · rfl

/-- The closed flag and the count of executed underlying closes move in
lockstep: each guard state reachable from the initial state has the flag
clear with count 0, or the flag set with count exactly 1. -/
def GuardState.consistent (s : GuardState) : Prop :=
  (s.closed = false ∧ s.closeCount = 0) ∨ (s.closed = true ∧ s.closeCount = 1)

theorem safeSend_frame (cap : Nat) (pick : SelectPick) (ctxDone : Bool)
    (r : Result) (s : GuardState) :
    (safeSend cap pick ctxDone r s).closed = s.closed
  ∧ (safeSend cap pick ctxDone r s).closeCount = s.closeCount := by
  simp only [safeSend]
  repeat' split
  all_goals exact ⟨rfl, rfl⟩

theorem guardStep_consistent (cap : Nat) (s : GuardState) (op : GOp)
    (h : s.consistent) : (guardStep cap s op).consistent := by
  cases op with
  | send r ctxDone pick =>
      have hf := safeSend_frame cap pick ctxDone r s
      rcases h with ⟨h1, h2⟩ | ⟨h1, h2⟩
      · exact Or.inl ⟨hf.1.trans h1, hf.2.trans h2⟩
      · exact Or.inr ⟨hf.1.trans h1, hf.2.trans h2⟩
  | close =>
      rcases h with ⟨h1, h2⟩ | ⟨h1, h2⟩
      · simp only [guardStep, safeClose, h1]
        exact Or.inr ⟨rfl, by simp [h2]⟩
      · rw [guardStep_of_closed cap s _ h1]
        exact Or.inr ⟨h1, h2⟩

theorem guardRun_consistent (cap : Nat) (ops : List GOp) :
    ∀ s : GuardState, s.consistent → (guardRun cap s ops).consistent := by
  induction ops with
  | nil => intro s h; exact h
  | cons op ops ih =>
      intro s h
      exact ih (guardStep cap s op) (guardStep_consistent cap s op h)

/-- C1: for every operation sequence around a Close, once the Close has
executed the closed flag is set and stays set, the queue is never touched
again by later Sends or Closes (dropped outcomes are not delivered), and
the underlying channel close has executed exactly once no matter how many
Close operations the whole sequence contains. -/
theorem guard_close_once (cap : Nat) (ops tail : List GOp) :
    (guardRun cap GuardState.init (ops ++ GOp.close :: tail)).closed = true
  ∧ (guardRun cap GuardState.init (ops ++ GOp.close :: tail)).queue
      = (guardRun cap GuardState.init (ops ++ [GOp.close])).queue
  ∧ (guardRun cap GuardState.init (ops ++ GOp.close :: tail)).closeCount = 1 := by
  have hsplit : ops ++ GOp.close :: tail = (ops ++ [GOp.close]) ++ tail := by simp
  have hfold : guardRun cap GuardState.init (ops ++ GOp.close :: tail)
      = guardRun cap (guardRun cap GuardState.init (ops ++ [GOp.close])) tail := by
    rw [hsplit]
    simp [guardRun, List.foldl_append]
  have hclosemid : guardRun cap GuardState.init (ops ++ [GOp.close])
      = safeClose (guardRun cap GuardState.init ops) := by
    simp [guardRun, List.foldl_append, guardStep]
  have hclosed : (guardRun cap GuardState.init (ops ++ [GOp.close])).closed = true := by
    rw [hclosemid]; exact safeClose_closed _
  have hstable := guardRun_of_closed cap tail _ hclosed
  have hcons : (guardRun cap GuardState.init (ops ++ [GOp.close])).consistent := by
    apply guardRun_consistent
    exact Or.inl ⟨rfl, rfl⟩
  have hcount : (guardRun cap GuardState.init (ops ++ [GOp.close])).closeCount = 1 := by
    rcases hcons with ⟨h1, _⟩ | ⟨_, h2⟩
    · rw [hclosed] at h1; cases h1
    · exact h2
  rw [hfold, hstable]
  exact ⟨hclosed, rfl, hcount⟩

/-- C2 counterexample: from the fresh (not closed) guard state with the
deadline already fired, a Send whose select picks the ready channel-send
case delivers the outcome into the queue instead of dropping it: Go select
chooses among ready cases at random, and with buffer space free the send
case is ready even after cancellation. -/
theorem safeSend_after_deadline_delivers :
    GuardState.init.closed = false
  ∧ (safeSend 10000 SelectPick.send true
        { latency := 7, statusCode := 200, error := false } GuardState.init).queue
      = [{ latency := 7, statusCode := 200, error := false }] := by decide

/-- C2 amended: a Send invoked while not closed after the deadline has
fired never faults and resolves nondeterministically: either the outcome
is silently dropped (state unchanged) or, when the buffer has free space,
it may still be enqueued; when the buffer is full the drop is certain. -/
theorem safeSend_after_deadline_cases (cap : Nat) (pick : SelectPick)
    (r : Result) (s : GuardState) (hc : s.closed = false) :
    (s.queue.length < cap →
      safeSend cap pick true r s = s ∨
      safeSend cap pick true r s = { s with queue := s.queue ++ [r] })
  ∧ (¬ s.queue.length < cap → safeSend cap pick true r s = s) := by
  constructor
  · intro hlen
    simp only [safeSend, hc, Bool.false_eq_true, if_false, if_true, hlen]
    cases pick
    · exact Or.inl rfl
    · exact Or.inr rfl
  · intro hlen
    simp [safeSend, hc, hlen]

/-- C2 amended witness: the case theorem applied to the fresh state with
the source buffer capacity 10000, the done pick and a concrete outcome. -/
theorem safeSend_after_deadline_cases_witness :
    (GuardState.init.queue.length < 10000 →
      safeSend 10000 SelectPick.done true
          { latency := 7, statusCode := 200, error := false } GuardState.init
        = GuardState.init ∨
      safeSend 10000 SelectPick.done true
          { latency := 7, statusCode := 200, error := false } GuardState.init
        = { GuardState.init with
              queue := GuardState.init.queue ++
                [{ latency := 7, statusCode := 200, error := false }] })
  ∧ (¬ GuardState.init.queue.length < 10000 →
      safeSend 10000 SelectPick.done true
          { latency := 7, statusCode := 200, error := false } GuardState.init
        = GuardState.init) :=
  safeSend_after_deadline_cases 10000 SelectPick.done
    { latency := 7, statusCode := 200, error := false } GuardState.init rfl

/-! ## Target-validation theorems -/

/-- C9: the validator prepends http:// exactly when the target lacks an
http:// or https:// prefix; it fails (MalformedTarget, modelled as none)
if and only if the external URL parser rejects the normalized string; the
three concrete examples of the spec hold, the last one (the string made of
colons and spaces) under the recorded fact that the parser rejects it. -/
theorem validateTarget_spec {α : Type} (parse : String → Option α) (t : String)
    (hbad : parse "http://::not a url::" = none) :
    (validateTarget parse t = none ↔ parse (normalizeTarget t) = none)
  ∧ (isURL t = false → normalizeTarget t = "http://" ++ t)
  ∧ (isURL t = true → normalizeTarget t = t)
  ∧ normalizeTarget "example.com" = "http://example.com"
  ∧ normalizeTarget "https://example.com" = "https://example.com"
  ∧ validateTarget parse "::not a url::" = none := by
  refine ⟨Iff.rfl, ?_, ?_, by decide, by decide, ?_⟩
  · intro h
    simp [normalizeTarget, h]
  · intro h
    simp [normalizeTarget, h]
  · have hn : normalizeTarget "::not a url::" = "http://::not a url::" := by decide
    rw [validateTarget, hn]
    exact hbad

/-- C9 witness: the validator theorem applied to a concrete parser that
rejects exactly the normalized bad string, at target example.com. -/
theorem validateTarget_spec_witness :
    normalizeTarget "example.com" = "http://example.com"
  ∧ normalizeTarget "https://example.com" = "https://example.com"
  ∧ validateTarget
      (fun s => if s = "http://::not a url::" then none else some 0)
      "::not a url::" = (none : Option Nat) := by
  have h := validateTarget_spec
    (fun s => if s = "http://::not a url::" then none else some 0)
    "example.com" (by decide)
  exact ⟨h.2.2.2.1, h.2.2.2.2.1, h.2.2.2.2.2⟩

/-- C10: scheme detection is case-sensitive.  For every target whose
7- or 8-character prefix equals the lowercase scheme only after lowering
its letters (so it differs from the exact lowercase scheme only in letter
case, and in particular is not byte-equal to it), isURL returns false and
validateTarget prepends http:// to the already scheme-bearing string. -/
theorem isURL_case_sensitive (s : String)
    (h7 : s.take 7 ≠ "http://") (h8 : s.take 8 ≠ "https://")
    (_hcase : (s.take 7).data.map Char.toLower = "http://".data
           ∨ (s.take 8).data.map Char.toLower = "https://".data) :
    isURL s = false ∧ normalizeTarget s = "http://" ++ s := by
  have hfalse : isURL s = false := by
    simp [isURL, h7, h8]
  exact ⟨hfalse, by simp [normalizeTarget, hfalse]⟩

/-- C10 witness: the case-sensitivity theorem applied to the uppercase
target HTTP://example.com, whose scheme differs from http:// only in
case. -/
theorem isURL_case_sensitive_witness :
    isURL "HTTP://example.com" = false
  ∧ normalizeTarget "HTTP://example.com" = "http://" ++ "HTTP://example.com" :=
  isURL_case_sensitive "HTTP://example.com" (by decide) (by decide)
    (Or.inl (by decide))
